import Mathlib

/-!
Shallow embedding of `merge_master.py`, a batch utility that merges all
files of one format found in a folder into a single output document.

Modelling conventions:

* A source file is a pair `(path, contents?)`: `contents?` is `none` when
  opening/parsing the file raises, `some c` when it yields contents `c`.
* Console output (`print`) is modelled by an ordered `List LogMsg`; each
  constructor mirrors one message the script prints.
* Third-party libraries (python-docx, pypdf, python-pptx) are modelled at
  their documented interface level: a Word document is the list of its
  top-level body elements, a PDF is its list of pages, a presentation is
  its layouts and slides.  `Document.add_page_break` appends a page-break
  element at the end of the accumulated content; section-property elements
  are opaque content elements like any other.
* An exception that the script does not catch is recorded in the result
  (`uncaught` field); the save step never happens on that path, mirroring
  the fact that the process dies before `save`/`write` is reached.
* Whether the final save succeeds is an environment fact, passed in as the
  boolean `saveOk`; a failed save is caught by the script and logged.
-/

/-- One console message printed by the script. -/
inductive LogMsg where
  /-- The "No .<ext> files found in ..." message printed on an empty file list. -/
  | noFiles (ext : String)
  /-- The "Found <n> ... files to merge." message. -/
  | foundCount (n : Nat)
  /-- The "Merging: <path>" message printed for each processed file. -/
  | merging (path : String)
  /-- The "  -> Adding page break..." message of the Word merger. -/
  | pageBreakAdded
  /-- The "  -> ERROR: Could not merge '<path>'. Skipping." message of the PDF merger. -/
  | pdfSkip (path : String)
  /-- The "An error occurred while saving the file" message. -/
  | saveError
  /-- The "Successfully merged ... files" message. -/
  | saveSuccess
  /-- The "  -> Warning: Layout '<name>' not in master. Using default." message. -/
  | warnLayout (name : String)
  /-- The "  -> Warning: Could not copy placeholder index <idx>" message. -/
  | warnPh (idx : Nat)
deriving DecidableEq

/-! ## File discoverer (`get_merge_files`) -/

/-- Whether a directory entry matches the glob pattern `*.<ext>`:
`*` matches any run of characters of a file name, but glob does not match
names that begin with a dot when the pattern does not. -/
def globMatch (name : String) (ext : String) : Bool :=
  (!name.startsWith ".") && name.endsWith ("." ++ ext)

/-- Embedding of `get_merge_files(directory, file_extension)`.
`entries` is the directory listing in file-system enumeration order
(arbitrary); `glob.glob` keeps the entries matching `*.<ext>` joined to the
directory, and `sorted` sorts the resulting paths ascending. -/
def get_merge_files (directory : String) (ext : String) (entries : List String) : List String :=
  List.insertionSort (fun a b => a ≤ b)
    ((entries.filter (fun n => globMatch n ext)).map (fun n => directory ++ "/" ++ n))

/-! ## Word merger (`merge_word_documents`) -/

/-- A body element of the accumulator document: either an element moved in
from a source document, or the paragraph added by `add_page_break`. -/
inductive WordElem (α : Type) where
  | src (a : α)
  | pageBreak
deriving DecidableEq

/-- Result of one Word-merger run.  `uncaught` holds the path of the source
document whose open raised (the script does not catch it); `saved` holds the
body the accumulator was saved with, `none` when no save happened. -/
structure WordResult (α : Type) where
  uncaught : Option String
  saved : Option (List (WordElem α))
  log : List LogMsg

/-- The Word merger's loop over `files_list`: `i` is the running index of
`enumerate`, `total` is `total_files`.  Each iteration prints the merging
notice, opens the source document (an uncaught failure aborts), appends the
document's body elements, and for `i < total - 1` adds a page break.
On failure the log printed so far and the failing path are returned. -/
def mergeWordGo {α : Type} (total : Nat) :
    Nat → List (String × Option (List α)) →
      Except (List LogMsg × String) (List (WordElem α) × List LogMsg)
  | _, [] => .ok ([], [])
  | _, (p, none) :: _ => .error ([.merging p], p)
  | i, (p, some d) :: rest =>
    let brk : List (WordElem α) := if i < total - 1 then [.pageBreak] else []
    let blog : List LogMsg := if i < total - 1 then [.pageBreakAdded] else []
    match mergeWordGo total (i + 1) rest with
    | .ok (body, log) => .ok (d.map .src ++ brk ++ body, (.merging p :: blog) ++ log)
    | .error (log, q) => .error ((.merging p :: blog) ++ log, q)

/-- Embedding of `merge_word_documents(files_list, output_filename)`. -/
def merge_word_documents {α : Type} (files : List (String × Option (List α)))
    (saveOk : Bool) : WordResult α :=
  match files with
  | [] => ⟨none, none, [.noFiles "docx"]⟩
  | _ :: _ =>
    match mergeWordGo files.length 0 files with
    | .error (log, q) => ⟨some q, none, .foundCount files.length :: log⟩
    | .ok (body, log) =>
      if saveOk then
        ⟨none, some body, (.foundCount files.length :: log) ++ [.saveSuccess]⟩
      else
        ⟨none, none, (.foundCount files.length :: log) ++ [.saveError]⟩

/-- The content a body holds, page breaks removed. -/
def wordContent {α : Type} (body : List (WordElem α)) : List α :=
  body.filterMap fun e => match e with | .src a => some a | .pageBreak => none

/-- The loop body built at running index `i` of `total`, as a standalone
function of the successfully opened documents. -/
def wordBody {α : Type} (total : Nat) : Nat → List (List α) → List (WordElem α)
  | _, [] => []
  | i, d :: rest =>
    d.map .src ++ (if i < total - 1 then [.pageBreak] else []) ++ wordBody total (i + 1) rest

/-! ## PDF merger (`merge_pdf_documents`) -/

/-- Result of one PDF-merger run: `saved` holds the pages written to the
output (`none` when no write happened), `log` the console output.  All
per-item and save failures are caught, so there is no `uncaught` field. -/
structure PdfResult (π : Type) where
  saved : Option (List π)
  log : List LogMsg

/-- The PDF merger's loop: each file prints the merging notice, then
`merger.append` either adds the file's pages or raises, which is caught
and logged as a skip; the loop always continues. -/
def mergePdfGo {π : Type} : List (String × Option (List π)) → List π × List LogMsg
  | [] => ([], [])
  | (p, none) :: rest =>
    let r := mergePdfGo rest
    (r.1, .merging p :: .pdfSkip p :: r.2)
  | (p, some pgs) :: rest =>
    let r := mergePdfGo rest
    (pgs ++ r.1, .merging p :: r.2)

/-- Embedding of `merge_pdf_documents(files_list, output_filename)`. -/
def merge_pdf_documents {π : Type} (files : List (String × Option (List π)))
    (saveOk : Bool) : PdfResult π :=
  match files with
  | [] => ⟨none, [.noFiles "pdf"]⟩
  | _ :: _ =>
    let r := mergePdfGo files
    if saveOk then
      ⟨some r.1, (.foundCount files.length :: r.2) ++ [.saveSuccess]⟩
    else
      ⟨none, (.foundCount files.length :: r.2) ++ [.saveError]⟩

/-! ## Slide-deck merger (`merge_ppt_documents`) -/

/-- A slide layout of the base deck, as the script sees it: its display
name and the indices of the placeholders a slide created from it receives. -/
structure Layout where
  name : String
  phIdxs : List Nat
deriving DecidableEq

/-- A placeholder shape of a source slide (an element of
`slide.placeholders`, so it carries a placeholder index), with its text
frame state and text. -/
structure SrcPh where
  idx : Nat
  hasTextFrame : Bool
  text : String
deriving DecidableEq

/-- A slide of a source deck: the name of its layout and its placeholders. -/
structure SrcSlide where
  layoutName : String
  placeholders : List SrcPh
deriving DecidableEq

/-- A presentation file, already opened: its path, its slide layouts and
its slides. -/
structure Deck where
  path : String
  layouts : List Layout
  slides : List SrcSlide
deriving DecidableEq

/-- A slide added to the base deck: the layout it was created from and the
text assignments performed on it, in execution order. -/
structure NewSlide where
  layout : Layout
  assigns : List (Nat × String)
deriving DecidableEq

/-- Result of one slide-merger run.  `uncaught` is true when an IndexError
escaped (fallback layout lookup on a too-short layout list); `saved` holds
the slides added to the base deck when the save happened. -/
structure PptResult where
  uncaught : Bool
  saved : Option (List NewSlide)
  log : List LogMsg

/-- Embedding of `layout_name_map = {layout.name: layout for layout in
master_prs.slide_layouts}` followed by `.get(name)`: the dict maps each
name to the last layout bearing it (later entries overwrite earlier ones). -/
def layoutMapGet (layouts : List Layout) (name : String) : Option Layout :=
  layouts.foldl (fun acc l => if l.name = name then some l else acc) none

/-- The text a placeholder index ends up holding after a list of
assignments executed in order: the last assignment to that index wins. -/
def finalText (assigns : List (Nat × String)) (i : Nat) : Option String :=
  assigns.foldl (fun acc p => if p.1 = i then some p.2 else acc) none

/-- The placeholder-copy loop of the slide merger: for each placeholder of
the source slide, look up the new slide's placeholder with the same index
(the new slide's placeholders are those of its layout).  If the lookup
raises KeyError the warning is printed and the loop continues; otherwise
the text is copied when the source placeholder has a text frame.
The `if not ph.is_placeholder: continue` guard of the script never fires,
because `slide.placeholders` yields only placeholder shapes (which also
all carry `placeholder_format` metadata).
Returns the assignments performed and the warnings printed, in order. -/
def copyPlaceholders (newIdxs : List Nat) : List SrcPh → List (Nat × String) × List LogMsg
  | [] => ([], [])
  | ph :: rest =>
    let r := copyPlaceholders newIdxs rest
    if ph.idx ∈ newIdxs then
      if ph.hasTextFrame then ((ph.idx, ph.text) :: r.1, r.2) else r
    else
      (r.1, .warnPh ph.idx :: r.2)

/-- Embedding of `slide.shapes.title`: the placeholder with index 0, when
the slide has one. -/
def srcTitle (s : SrcSlide) : Option SrcPh :=
  s.placeholders.find? (fun ph => ph.idx == 0)

/-- Processing of one slide of a deck after the first: resolve the slide's
layout name in the base deck's layout map, falling back (with a warning) to
`master_prs.slide_layouts[1]` — an uncaught IndexError when that position
does not exist; create the new slide; copy placeholder texts; then copy the
title text when both slides expose a title. -/
def processSlide (layouts : List Layout) (slide : SrcSlide) :
    Except Unit (NewSlide × List LogMsg) :=
  let resolved : Except Unit (Layout × List LogMsg) :=
    match layoutMapGet layouts slide.layoutName with
    | some l => .ok (l, [])
    | none =>
      match layouts[1]? with
      | some fb => .ok (fb, [.warnLayout slide.layoutName])
      | none => .error ()
  match resolved with
  | .error _ => .error ()
  | .ok (l, wlog) =>
    let cp := copyPlaceholders l.phIdxs slide.placeholders
    let titleAssign : List (Nat × String) :=
      match srcTitle slide with
      | some tph => if 0 ∈ l.phIdxs then [(0, tph.text)] else []
      | none => []
    .ok (⟨l, cp.1 ++ titleAssign⟩, wlog ++ cp.2)

/-- The slide loop over one source deck, in slide order; an uncaught
IndexError aborts everything. -/
def processSlides (layouts : List Layout) : List SrcSlide →
    Except Unit (List NewSlide × List LogMsg)
  | [] => .ok ([], [])
  | s :: rest =>
    match processSlide layouts s with
    | .error _ => .error ()
    | .ok (ns, log) =>
      match processSlides layouts rest with
      | .error _ => .error ()
      | .ok (nss, logs) => .ok (ns :: nss, log ++ logs)

/-- The deck loop over `files_list[1:]`: print the merging notice for each
deck, process its slides in order. -/
def processDecks (layouts : List Layout) : List Deck →
    Except Unit (List NewSlide × List LogMsg)
  | [] => .ok ([], [])
  | d :: rest =>
    match processSlides layouts d.slides with
    | .error _ => .error ()
    | .ok (nss, log) =>
      match processDecks layouts rest with
      | .error _ => .error ()
      | .ok (nss2, log2) => .ok (nss ++ nss2, (.merging d.path :: log) ++ log2)

/-- Embedding of `merge_ppt_documents(files_list, output_filename)`: the
first deck is the base; its layouts become the layout map; every slide of
every later deck is appended to it; then the base deck is saved. -/
def merge_ppt_documents (decks : List Deck) (saveOk : Bool) : PptResult :=
  match decks with
  | [] => ⟨false, none, [.noFiles "pptx"]⟩
  | base :: rest =>
    match processDecks base.layouts rest with
    | .error _ => ⟨true, none, [.foundCount decks.length]⟩
    | .ok (nss, log) =>
      if saveOk then
        ⟨false, some nss, (.foundCount decks.length :: log) ++ [.saveSuccess]⟩
      else
        ⟨false, none, (.foundCount decks.length :: log) ++ [.saveError]⟩

/-- The layout the new slide for `r` was created from, when the slide was
processed without an uncaught error. -/
def slideLayoutOf (r : Except Unit (NewSlide × List LogMsg)) : Option Layout :=
  r.toOption.map fun x => x.1.layout

/-- How many layout-fallback warnings naming `name` the processing of one
slide printed, when the slide was processed without an uncaught error. -/
def slideLayoutWarnings (r : Except Unit (NewSlide × List LogMsg)) (name : String) :
    Option Nat :=
  r.toOption.map fun x => x.2.count (LogMsg.warnLayout name)

/-! ## Helper lemmas for the Word merger -/

/-- When every file opens, the length of the opened documents equals the
length of the file list. -/
theorem length_filterMap_snd {β γ : Type} (files : List (β × Option γ))
    (h : ∀ pf ∈ files, pf.2.isSome) :
    (files.filterMap (fun pf => pf.2)).length = files.length := by
  induction files with
  | nil => rfl
  | cons f rest ih =>
    have hf : f.2.isSome := h f (List.mem_cons_self _ _)
    obtain ⟨d, hd⟩ := Option.isSome_iff_exists.mp hf
    simp [List.filterMap_cons, hd, ih fun pf hpf => h pf (List.mem_cons_of_mem _ hpf)]

/-- When every file opens, the Word loop succeeds and builds `wordBody` of
the opened documents. -/
theorem mergeWordGo_ok {α : Type} (files : List (String × Option (List α))) :
    ∀ i total : Nat, (∀ pf ∈ files, pf.2.isSome) →
    ∃ log, mergeWordGo total i files =
      .ok (wordBody total i (files.filterMap (fun pf => pf.2)), log) := by
  induction files with
  | nil => intro i total _; exact ⟨[], rfl⟩
  | cons f rest ih =>
    intro i total h
    obtain ⟨p, o⟩ := f
    have ho : o.isSome := h (p, o) (List.mem_cons_self _ _)
    obtain ⟨d, hd⟩ := Option.isSome_iff_exists.mp ho
    subst hd
    obtain ⟨log, hlog⟩ := ih (i + 1) total (fun pf hpf => h pf (List.mem_cons_of_mem _ hpf))
    refine ⟨(.merging p :: (if i < total - 1 then [.pageBreakAdded] else [])) ++ log, ?_⟩
    simp [mergeWordGo, hlog, wordBody, List.filterMap_cons]

/-- When some file fails to open, the Word loop fails. -/
theorem mergeWordGo_err {α : Type} (files : List (String × Option (List α))) :
    ∀ i total : Nat, (∃ pf ∈ files, pf.2 = none) →
    ∃ e, mergeWordGo total i files = .error e := by
  induction files with
  | nil => intro _ _ h; simp at h
  | cons f rest ih =>
    intro i total h
    obtain ⟨p, o⟩ := f
    cases o with
    | none => exact ⟨_, rfl⟩
    | some d =>
      obtain ⟨pf, hpf, hnone⟩ := h
      rcases List.mem_cons.mp hpf with heq | hmem
      · rw [heq] at hnone; simp at hnone
      · obtain ⟨e, he⟩ := ih (i + 1) total ⟨pf, hmem, hnone⟩
        refine ⟨((.merging p :: (if i < total - 1 then [.pageBreakAdded] else [])) ++ e.1,
          e.2), ?_⟩
        simp [mergeWordGo, he]

/-- With the correct total, `wordBody` is the source documents' elements
with a single page break interspersed between consecutive documents. -/
theorem wordBody_eq_intersperse {α : Type} (docs : List (List α)) :
    ∀ i total : Nat, total = i + docs.length →
    wordBody total i docs =
      (List.intersperse [WordElem.pageBreak] (docs.map (List.map WordElem.src))).flatten := by
  induction docs with
  | nil => intro i total _; simp [wordBody]
  | cons d rest ih =>
    intro i total htot
    cases rest with
    | nil =>
      have hnot : ¬ i < total - 1 := by simp at htot; omega
      simp [wordBody, hnot]
    | cons d2 rest2 =>
      have hlt : i < total - 1 := by simp at htot; omega
      have htot2 : total = (i + 1) + (d2 :: rest2).length := by simp at htot ⊢; omega
      rw [wordBody, ih (i + 1) total htot2]
      simp [hlt, List.intersperse_cons_cons]

/-- Page breaks carry no content. -/
theorem wordContent_map_src {α : Type} (d : List α) :
    wordContent (d.map WordElem.src) = d := by
  induction d with
  | nil => rfl
  | cons a l ih => simp [wordContent, List.filterMap_cons] at ih ⊢; exact ih

/-- Extracting content distributes over concatenation. -/
theorem wordContent_append {α : Type} (l1 l2 : List (WordElem α)) :
    wordContent (l1 ++ l2) = wordContent l1 ++ wordContent l2 := by
  simp only [wordContent, List.filterMap_append]

/-- A lone page break holds no content. -/
theorem wordContent_pageBreak {α : Type} :
    wordContent ([WordElem.pageBreak] : List (WordElem α)) = [] := rfl

/-- Content of the interspersed body is the concatenation of the source
documents, in order. -/
theorem wordContent_intersperse {α : Type} (docs : List (List α)) :
    wordContent ((List.intersperse [WordElem.pageBreak] (docs.map (List.map WordElem.src))).flatten)
      = docs.flatten := by
  induction docs with
  | nil => rfl
  | cons d rest ih =>
    cases rest with
    | nil => simp [wordContent_map_src]
    | cons d2 rest2 =>
      rw [List.map_cons, List.map_cons, List.intersperse_cons_cons, List.flatten_cons,
        List.flatten_cons, wordContent_append, wordContent_append, wordContent_map_src,
        wordContent_pageBreak]
      rw [List.map_cons] at ih
      simp [ih]

/-- A page break never occurs among copied source elements. -/
theorem count_pageBreak_map_src {α : Type} [DecidableEq α] (d : List α) :
    (d.map WordElem.src).count WordElem.pageBreak = 0 := by
  induction d with
  | nil => rfl
  | cons a l ih => simp [List.count_cons, ih]

/-- The interspersed body holds one page break per gap between consecutive
documents. -/
theorem count_pageBreak_intersperse {α : Type} [DecidableEq α] (docs : List (List α)) :
    ((List.intersperse [WordElem.pageBreak] (docs.map (List.map WordElem.src))).flatten).count
      WordElem.pageBreak = docs.length - 1 := by
  induction docs with
  | nil => rfl
  | cons d rest ih =>
    cases rest with
    | nil => simp [count_pageBreak_map_src]
    | cons d2 rest2 =>
      rw [List.map_cons, List.map_cons, List.intersperse_cons_cons]
      rw [List.map_cons] at ih
      simp only [List.flatten_cons, List.count_append, List.length_cons] at ih ⊢
      simp [count_pageBreak_map_src, ih]
      omega

/-! ## Helper lemmas for the PDF merger -/

/-- The pages accumulated by the PDF loop are exactly the pages of the
files that parsed, concatenated in input order. -/
theorem mergePdfGo_pages {π : Type} (files : List (String × Option (List π))) :
    (mergePdfGo files).1 = (files.filterMap (fun pf => pf.2)).flatten := by
  induction files with
  | nil => rfl
  | cons f rest ih =>
    obtain ⟨p, o⟩ := f
    cases o with
    | none => simp [mergePdfGo, List.filterMap_cons, ih]
    | some pgs => simp [mergePdfGo, List.filterMap_cons, ih]

/-- Every file that fails to parse leaves a skip warning naming its path
in the PDF loop's log. -/
theorem mergePdfGo_skip_mem {π : Type} (files : List (String × Option (List π)))
    (pf : String × Option (List π)) (hmem : pf ∈ files) (hfail : pf.2 = none) :
    LogMsg.pdfSkip pf.1 ∈ (mergePdfGo files).2 := by
  induction files with
  | nil => simp at hmem
  | cons f rest ih =>
    obtain ⟨p, o⟩ := f
    rcases List.mem_cons.mp hmem with heq | hmem2
    · subst heq
      simp only at hfail
      subst hfail
      simp [mergePdfGo]
    · cases o with
      | none => simp [mergePdfGo, ih hmem2]
      | some pgs => simp [mergePdfGo, ih hmem2]

/-! ## Helper lemmas for the slide-deck merger -/

/-- The placeholder-copy loop never prints a layout warning. -/
theorem copyPlaceholders_warnLayout_count (newIdxs : List Nat) (phs : List SrcPh)
    (name : String) :
    ((copyPlaceholders newIdxs phs).2).count (LogMsg.warnLayout name) = 0 := by
  induction phs with
  | nil => rfl
  | cons ph rest ih =>
    by_cases hin : ph.idx ∈ newIdxs
    · by_cases htf : ph.hasTextFrame
      · simp [copyPlaceholders, hin, htf, ih]
      · simp [copyPlaceholders, hin, htf, ih]
    · simp [copyPlaceholders, hin, List.count_cons, ih]

/-- The placeholder-copy loop processes a concatenation of placeholder
lists independently, in order. -/
theorem copyPlaceholders_append (newIdxs : List Nat) (l1 l2 : List SrcPh) :
    copyPlaceholders newIdxs (l1 ++ l2) =
      ((copyPlaceholders newIdxs l1).1 ++ (copyPlaceholders newIdxs l2).1,
       (copyPlaceholders newIdxs l1).2 ++ (copyPlaceholders newIdxs l2).2) := by
  induction l1 with
  | nil => simp [copyPlaceholders]
  | cons ph rest ih =>
    by_cases hin : ph.idx ∈ newIdxs
    · by_cases htf : ph.hasTextFrame
      · simp [copyPlaceholders, hin, htf, ih]
      · simp [copyPlaceholders, hin, htf, ih]
    · simp [copyPlaceholders, hin, ih]

/-- What the placeholder-copy loop does with a single placeholder. -/
theorem copyPlaceholders_singleton (newIdxs : List Nat) (ph : SrcPh) :
    copyPlaceholders newIdxs [ph] =
      ((if ph.idx ∈ newIdxs ∧ ph.hasTextFrame = true then [(ph.idx, ph.text)] else []),
       (if ph.idx ∈ newIdxs then [] else [LogMsg.warnPh ph.idx])) := by
  by_cases hin : ph.idx ∈ newIdxs
  · by_cases htf : ph.hasTextFrame
    · simp [copyPlaceholders, hin, htf]
    · simp [copyPlaceholders, hin, htf]
  · simp [copyPlaceholders, hin]

/-- The slide whose layout name misses the map errors out when the base
deck has no layout at position 1. -/
theorem processSlide_fallback_err (layouts : List Layout) (slide : SrcSlide)
    (hmap : layoutMapGet layouts slide.layoutName = none)
    (hlen : layouts.length < 2) :
    processSlide layouts slide = .error () := by
  have hget : layouts[1]? = none := by
    rw [List.getElem?_eq_none_iff]
    omega
  simp [processSlide, hmap, hget]

/-- A slide loop containing an erroring slide errors out. -/
theorem processSlides_err (layouts : List Layout) (slides : List SrcSlide)
    (h : ∃ s ∈ slides, processSlide layouts s = .error ()) :
    processSlides layouts slides = .error () := by
  induction slides with
  | nil => simp at h
  | cons s rest ih =>
    obtain ⟨s0, hmem, herr⟩ := h
    rcases List.mem_cons.mp hmem with heq | hmem2
    · subst heq
      simp [processSlides, herr]
    · cases hs : processSlide layouts s with
      | error e => simp [processSlides, hs]
      | ok v => simp [processSlides, hs, ih ⟨s0, hmem2, herr⟩]

/-- A deck loop containing an erroring deck errors out. -/
theorem processDecks_err (layouts : List Layout) (decks : List Deck)
    (h : ∃ d ∈ decks, processSlides layouts d.slides = .error ()) :
    processDecks layouts decks = .error () := by
  induction decks with
  | nil => simp at h
  | cons d rest ih =>
    obtain ⟨d0, hmem, herr⟩ := h
    rcases List.mem_cons.mp hmem with heq | hmem2
    · subst heq
      simp [processDecks, herr]
    · cases hd : processSlides layouts d.slides with
      | error e => simp [processDecks, hd]
      | ok v => simp [processDecks, hd, ih ⟨d0, hmem2, herr⟩]

/-- The texts a slide ends up with: the last assignment to an index wins. -/
theorem finalText_append_single (assigns : List (Nat × String)) (i : Nat) (t : String) :
    finalText (assigns ++ [(i, t)]) i = some t := by
  simp [finalText, List.foldl_append]

/-! ## Claim theorems -/

/-- C1: for every non-empty input file list, the Word merger and the PDF
merger append the sources' content to the accumulator document in exactly
the order of the input list, with no reordering, deduplication, or
filtering other than the PDF merger's skip-on-error: the Word output's
content is the concatenation of the opened documents' elements in input
order, and the PDF output is the concatenation of the pages of the files
that parsed, in input order. -/
theorem mergers_append_in_input_order {α π : Type}
    (filesW : List (String × Option (List α))) (filesP : List (String × Option (List π)))
    (hWne : filesW ≠ []) (hWall : ∀ pf ∈ filesW, pf.2.isSome) (hPne : filesP ≠ []) :
    (merge_word_documents filesW true).saved.map wordContent =
      some ((filesW.filterMap (fun pf => pf.2)).flatten) ∧
    (merge_pdf_documents filesP true).saved =
      some ((filesP.filterMap (fun pf => pf.2)).flatten) := by
  constructor
  · cases filesW with
    | nil => exact absurd rfl hWne
    | cons f fs =>
      obtain ⟨log, hgo⟩ := mergeWordGo_ok (f :: fs) 0 (f :: fs).length hWall
      have hlen := length_filterMap_snd (f :: fs) hWall
      have hbody := wordBody_eq_intersperse ((f :: fs).filterMap fun pf => pf.2)
        0 (f :: fs).length (by omega)
      simp only [List.length_cons] at hgo hbody
      simp [merge_word_documents, hgo, hbody, wordContent_intersperse]
  · cases filesP with
    | nil => exact absurd rfl hPne
    | cons f fs => simp [merge_pdf_documents, mergePdfGo_pages]

/-- C2: for every input list of N documents with N at least 1, the Word
merger inserts exactly N - 1 page breaks into the accumulator, each one
between two consecutive source documents' content (the saved body is the
documents' elements with one page break interspersed between consecutive
documents, so none before the first and none after the last). -/
theorem word_page_break_count {α : Type} [DecidableEq α]
    (files : List (String × Option (List α)))
    (hne : files ≠ []) (hall : ∀ pf ∈ files, pf.2.isSome) :
    (merge_word_documents files true).saved =
      some ((List.intersperse [WordElem.pageBreak]
        ((files.filterMap (fun pf => pf.2)).map (List.map WordElem.src))).flatten) ∧
    ((merge_word_documents files true).saved.getD []).count WordElem.pageBreak
      = files.length - 1 := by
  cases files with
  | nil => exact absurd rfl hne
  | cons f fs =>
    obtain ⟨log, hgo⟩ := mergeWordGo_ok (f :: fs) 0 (f :: fs).length hall
    have hlen := length_filterMap_snd (f :: fs) hall
    have hbody := wordBody_eq_intersperse ((f :: fs).filterMap fun pf => pf.2)
      0 (f :: fs).length (by omega)
    simp only [List.length_cons] at hgo hbody
    constructor
    · simp [merge_word_documents, hgo, hbody]
    · rw [← hlen]
      simp [merge_word_documents, hgo, hbody, count_pageBreak_intersperse]

/-- C3: if appending a PDF file fails, the PDF merger catches the failure,
logs a skip warning naming that file's path, and continues with all
remaining files; the output contains exactly the pages of the successfully
appended files, in order. -/
theorem pdf_failure_skipped_rest_merged {π : Type}
    (files : List (String × Option (List π))) (pf : String × Option (List π))
    (hne : files ≠ []) (hmem : pf ∈ files) (hfail : pf.2 = none) :
    (merge_pdf_documents files true).saved =
      some ((files.filterMap (fun x => x.2)).flatten) ∧
    LogMsg.pdfSkip pf.1 ∈ (merge_pdf_documents files true).log := by
  cases files with
  | nil => exact absurd rfl hne
  | cons f fs =>
    have hskip := mergePdfGo_skip_mem (f :: fs) pf hmem hfail
    constructor
    · simp [merge_pdf_documents, mergePdfGo_pages]
    · simp [merge_pdf_documents, hskip]

/-- C4: for each of the three pipelines, an empty input file list produces
no saved output, no uncaught error, and a log consisting of exactly the
one "no files found" message. -/
theorem empty_input_only_message {α π : Type} (saveOk : Bool) :
    merge_word_documents ([] : List (String × Option (List α))) saveOk =
      ⟨none, none, [.noFiles "docx"]⟩ ∧
    merge_pdf_documents ([] : List (String × Option (List π))) saveOk =
      ⟨none, [.noFiles "pdf"]⟩ ∧
    merge_ppt_documents [] saveOk = ⟨false, none, [.noFiles "pptx"]⟩ :=
  ⟨rfl, rfl, rfl⟩

/-- C5: in the Word merger, a failure while opening any source document is
not caught: it propagates as an uncaught error and no save occurs; when
every document opens, no error propagates, and a failure during the final
save only leads to a logged save-error message with no output saved. -/
theorem word_open_uncaught_save_caught {α : Type}
    (files : List (String × Option (List α))) (saveOk : Bool) :
    ((∃ pf ∈ files, pf.2 = none) →
      (merge_word_documents files saveOk).uncaught.isSome = true ∧
      (merge_word_documents files saveOk).saved = none) ∧
    ((∀ pf ∈ files, pf.2.isSome) →
      (merge_word_documents files saveOk).uncaught = none) ∧
    (files ≠ [] → (∀ pf ∈ files, pf.2.isSome) → saveOk = false →
      (merge_word_documents files saveOk).saved = none ∧
      LogMsg.saveError ∈ (merge_word_documents files saveOk).log) := by
  refine ⟨?_, ?_, ?_⟩
  · intro h
    cases files with
    | nil => obtain ⟨pf, hpf, _⟩ := h; simp at hpf
    | cons f fs =>
      obtain ⟨e, he⟩ := mergeWordGo_err (f :: fs) 0 (f :: fs).length h
      obtain ⟨log, q⟩ := e
      simp only [List.length_cons] at he
      simp [merge_word_documents, he]
  · intro h
    cases files with
    | nil => rfl
    | cons f fs =>
      obtain ⟨log, hgo⟩ := mergeWordGo_ok (f :: fs) 0 (f :: fs).length h
      simp only [List.length_cons] at hgo
      cases saveOk <;> simp [merge_word_documents, hgo]
  · intro hne hall hsave
    subst hsave
    cases files with
    | nil => exact absurd rfl hne
    | cons f fs =>
      obtain ⟨log, hgo⟩ := mergeWordGo_ok (f :: fs) 0 (f :: fs).length hall
      simp only [List.length_cons] at hgo
      constructor
      · simp [merge_word_documents, hgo]
      · simp [merge_word_documents, hgo]

/-- C6: for every slide of a deck after the first, the layout is resolved
by name in the base deck's layout map: a name present in the map yields
exactly that layout and no fallback warning; an absent name yields the
fallback layout at position 1 of the base deck's layout list and exactly
one warning for that slide. -/
theorem slide_layout_resolution (layouts : List Layout) (slide : SrcSlide) (l : Layout) :
    (layoutMapGet layouts slide.layoutName = some l →
      slideLayoutOf (processSlide layouts slide) = some l ∧
      slideLayoutWarnings (processSlide layouts slide) slide.layoutName = some 0) ∧
    (layoutMapGet layouts slide.layoutName = none → layouts[1]? = some l →
      slideLayoutOf (processSlide layouts slide) = some l ∧
      slideLayoutWarnings (processSlide layouts slide) slide.layoutName = some 1) := by
  constructor
  · intro h
    simp [processSlide, h, slideLayoutOf, slideLayoutWarnings, Except.toOption,
      copyPlaceholders_warnLayout_count]
  · intro h hfb
    simp [processSlide, h, hfb, slideLayoutOf, slideLayoutWarnings, Except.toOption,
      List.count_cons, copyPlaceholders_warnLayout_count]

/-- C7: the placeholder-copy loop treats each source placeholder with a
text frame independently: when the new slide has a placeholder at the same
index the text is copied verbatim, otherwise one warning naming the index
is printed and the placeholder is skipped; either way the placeholders
before and after it are processed unchanged. -/
theorem copy_placeholders_per_index (newIdxs : List Nat) (pre post : List SrcPh)
    (ph : SrcPh) :
    (copyPlaceholders newIdxs (pre ++ ph :: post)).1 =
      (copyPlaceholders newIdxs pre).1 ++
        (if ph.idx ∈ newIdxs ∧ ph.hasTextFrame = true then [(ph.idx, ph.text)] else []) ++
        (copyPlaceholders newIdxs post).1 ∧
    (copyPlaceholders newIdxs (pre ++ ph :: post)).2 =
      (copyPlaceholders newIdxs pre).2 ++
        (if ph.idx ∈ newIdxs then [] else [LogMsg.warnPh ph.idx]) ++
        (copyPlaceholders newIdxs post).2 := by
  rw [List.append_cons, copyPlaceholders_append, copyPlaceholders_append,
    copyPlaceholders_singleton]
  constructor <;> simp

/-- C9: after the per-index placeholder copy, when the source slide
exposes a title (the placeholder at index 0) and the new slide's layout
also provides index 0, the title text is copied over, overwriting whatever
the placeholder-copy step may already have assigned to the title. -/
theorem title_copy_overwrites (layouts : List Layout) (slide : SrcSlide)
    (ns : NewSlide) (log : List LogMsg) (tph : SrcPh)
    (hok : processSlide layouts slide = .ok (ns, log))
    (htitle : srcTitle slide = some tph)
    (hnew : 0 ∈ ns.layout.phIdxs) :
    finalText ns.assigns 0 = some tph.text := by
  cases hmap : layoutMapGet layouts slide.layoutName with
  | some l =>
    simp only [processSlide, hmap, htitle] at hok
    obtain ⟨hns, hlog⟩ := by
      simpa using hok
    subst hns
    simp only [NewSlide.mk.injEq] at hnew ⊢
    rw [if_pos (by exact hnew)]
    exact finalText_append_single _ 0 tph.text
  | none =>
    cases hfb : layouts[1]? with
    | none => simp [processSlide, hmap, hfb] at hok
    | some fb =>
      simp only [processSlide, hmap, hfb, htitle] at hok
      obtain ⟨hns, hlog⟩ := by
        simpa using hok
      subst hns
      rw [if_pos (by exact hnew)]
      exact finalText_append_single _ 0 tph.text

/-- C10: when a source slide's layout name is absent from the base deck's
layout map and the base deck has fewer than two slide layouts, the
fallback lookup raises an uncaught indexing error: the whole run aborts
and no output is saved. -/
theorem fallback_layout_unguarded (base : Deck) (rest : List Deck) (saveOk : Bool)
    (hlen : base.layouts.length < 2)
    (h : ∃ d ∈ rest, ∃ s ∈ d.slides, layoutMapGet base.layouts s.layoutName = none) :
    (merge_ppt_documents (base :: rest) saveOk).uncaught = true ∧
    (merge_ppt_documents (base :: rest) saveOk).saved = none := by
  obtain ⟨d, hd, s, hs, hmap⟩ := h
  have herr : processDecks base.layouts rest = .error () :=
    processDecks_err _ _
      ⟨d, hd, processSlides_err _ _ ⟨s, hs, processSlide_fallback_err _ _ hmap hlen⟩⟩
  simp [merge_ppt_documents, herr]

/-- C8: the file discoverer returns the paths of the entries matching
`<directory>/*.<extension>`, sorted ascending lexicographically; it is a
total function, a permutation of the matching entries, and an empty
directory yields the empty list. -/
theorem get_merge_files_sorted_matching (directory ext : String) (entries : List String) :
    List.Sorted (fun a b => a ≤ b) (get_merge_files directory ext entries) ∧
    (get_merge_files directory ext entries).Perm
      ((entries.filter (fun n => globMatch n ext)).map (fun n => directory ++ "/" ++ n)) ∧
    (∀ p, p ∈ get_merge_files directory ext entries ↔
      ∃ n ∈ entries, globMatch n ext = true ∧ p = directory ++ "/" ++ n) ∧
    get_merge_files directory ext [] = [] := by
  refine ⟨List.sorted_insertionSort _ _, List.perm_insertionSort _ _, ?_, rfl⟩
  intro p
  rw [get_merge_files, List.mem_insertionSort, List.mem_map]
  constructor
  · rintro ⟨n, hn, rfl⟩
    rw [List.mem_filter] at hn
    exact ⟨n, hn.1, hn.2, rfl⟩
  · rintro ⟨n, hn, hg, rfl⟩
    exact ⟨n, List.mem_filter.mpr ⟨hn, hg⟩, rfl⟩

/-! ## Concrete witnesses -/

/-- Witness for C1 at a concrete two-file Word run and a three-file PDF
run with one failing file. -/
theorem mergers_append_in_input_order_witness :
    (merge_word_documents [("a", some [1, 2]), ("b", some [3])] true).saved.map wordContent =
      some [1, 2, 3] ∧
    (merge_pdf_documents [("x", some [10]), ("y", none), ("z", some [11])] true).saved =
      some [10, 11] :=
  mergers_append_in_input_order [("a", some [1, 2]), ("b", some [3])]
    [("x", some [10]), ("y", none), ("z", some [11])]
    (by decide) (by decide) (by decide)

/-- Witness for C2 at a concrete two-file Word run. -/
theorem word_page_break_count_witness :
    (merge_word_documents [("a", some [1]), ("b", some [2])] true).saved =
      some [WordElem.src 1, WordElem.pageBreak, WordElem.src 2] ∧
    ((merge_word_documents [("a", some [1]), ("b", some [2])] true).saved.getD
      []).count WordElem.pageBreak = 1 :=
  word_page_break_count [("a", some [1]), ("b", some [2])] (by decide) (by decide)

/-- Witness for C3 at a concrete run whose middle file fails to parse. -/
theorem pdf_failure_skipped_rest_merged_witness :
    (merge_pdf_documents [("a", some [1]), ("b", none), ("c", some [2])] true).saved =
      some [1, 2] ∧
    LogMsg.pdfSkip "b" ∈
      (merge_pdf_documents [("a", some [1]), ("b", none), ("c", some [2])] true).log :=
  pdf_failure_skipped_rest_merged [("a", some [1]), ("b", none), ("c", some [2])]
    ("b", none) (by decide) (by decide) rfl

/-- Witness for C5: a failing open propagates on one concrete run, and a
failing save is caught and logged on another. -/
theorem word_open_uncaught_save_caught_witness :
    ((merge_word_documents [("a", some [0]), ("b", (none : Option (List Nat)))]
        true).uncaught.isSome = true ∧
      (merge_word_documents [("a", some [0]), ("b", (none : Option (List Nat)))]
        true).saved = none) ∧
    ((merge_word_documents [("a", some ([0] : List Nat))] false).saved = none ∧
      LogMsg.saveError ∈ (merge_word_documents [("a", some ([0] : List Nat))] false).log) :=
  ⟨(word_open_uncaught_save_caught [("a", some [0]), ("b", none)] true).1
      ⟨("b", none), by decide, rfl⟩,
   (word_open_uncaught_save_caught [("a", some [0])] false).2.2
      (by decide) (by decide) rfl⟩

/-- Witness for C6: one slide whose layout name is in the base map, one
slide whose layout name falls back to position 1. -/
theorem slide_layout_resolution_witness :
    (slideLayoutOf (processSlide [Layout.mk "Title" [0], Layout.mk "Body" [0, 1]]
        (SrcSlide.mk "Body" [])) = some (Layout.mk "Body" [0, 1]) ∧
      slideLayoutWarnings (processSlide [Layout.mk "Title" [0], Layout.mk "Body" [0, 1]]
        (SrcSlide.mk "Body" [])) "Body" = some 0) ∧
    (slideLayoutOf (processSlide [Layout.mk "Title" [0], Layout.mk "Body" [0, 1]]
        (SrcSlide.mk "Absent" [])) = some (Layout.mk "Body" [0, 1]) ∧
      slideLayoutWarnings (processSlide [Layout.mk "Title" [0], Layout.mk "Body" [0, 1]]
        (SrcSlide.mk "Absent" [])) "Absent" = some 1) :=
  ⟨(slide_layout_resolution [Layout.mk "Title" [0], Layout.mk "Body" [0, 1]]
      (SrcSlide.mk "Body" []) (Layout.mk "Body" [0, 1])).1 (by decide),
   (slide_layout_resolution [Layout.mk "Title" [0], Layout.mk "Body" [0, 1]]
      (SrcSlide.mk "Absent" []) (Layout.mk "Body" [0, 1])).2 (by decide) (by decide)⟩

/-- Witness for C9 at a concrete slide whose title placeholder is copied
by step 3 and then overwritten by the title copy. -/
theorem title_copy_overwrites_witness :
    finalText (NewSlide.mk (Layout.mk "A" [0]) [(0, "T"), (0, "T")]).assigns 0 = some "T" :=
  title_copy_overwrites [Layout.mk "A" [0]] (SrcSlide.mk "A" [SrcPh.mk 0 true "T"])
    (NewSlide.mk (Layout.mk "A" [0]) [(0, "T"), (0, "T")]) [] (SrcPh.mk 0 true "T")
    rfl rfl (by decide)

/-- Witness for C10: a base deck with a single layout and a second deck
whose slide names a missing layout abort the run with nothing saved. -/
theorem fallback_layout_unguarded_witness :
    (merge_ppt_documents [Deck.mk "base" [Layout.mk "Only" [0]] [],
      Deck.mk "d" [] [SrcSlide.mk "Missing" []]] true).uncaught = true ∧
    (merge_ppt_documents [Deck.mk "base" [Layout.mk "Only" [0]] [],
      Deck.mk "d" [] [SrcSlide.mk "Missing" []]] true).saved = none :=
  fallback_layout_unguarded (Deck.mk "base" [Layout.mk "Only" [0]] [])
    [Deck.mk "d" [] [SrcSlide.mk "Missing" []]] true (by decide)
    ⟨Deck.mk "d" [] [SrcSlide.mk "Missing" []], by decide,
     SrcSlide.mk "Missing" [], by decide, by decide⟩
